import Mathlib

/-!
Shallow embedding of the credit-application service (naira0001/credit-application-service).

The embedded code comes from four Python source files:
- `models.py`   : the SQLAlchemy rows (`User`, `Application`) and their column types;
- `schemas.py`  : the pydantic request/response models and field validators;
- `auth.py`     : password hashing hooks, token decoding, `get_current_user`;
- `main.py`     : the HTTP handlers (`register_user`, `create_application`,
  `get_applications`, `get_application`, `update_application_status`).

The database session is embedded as an explicit `DbState` record threaded through
each handler; a handler that raises `HTTPException` is embedded as `Except HTTPException α`.
Monetary amounts travel through the request layer as Python `Decimal` (exact
decimal arithmetic); they are embedded as `ℚ`, on which every decimal value and
every comparison is exact.  External primitives (bcrypt hashing, jose JWT
decoding) are embedded as an injected hashing function and an explicit token
record carrying the facts `jwt.decode` checks (well-formedness, signature
validity, expiry), per their documented behaviour.  The catch-all
`except Exception` → HTTP 500 wrappers model failures of the external store and
are outside the embedded logic.
-/

namespace CreditApp

/-- Application status values: `Literal["new", "approved", "rejected"]`
(schemas.py `ApplicationUpdateStatus`); models.py stores them as strings. -/
inductive Status where
  | new
  | approved
  | rejected
deriving DecidableEq, Repr

/-- A row of the `users` table (models.py `User`). -/
structure User where
  id : Nat
  username : String
  hashed_password : String
deriving DecidableEq, Repr

/-- A row of the `applications` table (models.py `Application`).  The amount is
carried as an exact rational, matching the exact `Decimal` values the request
layer (schemas.py) produces; see `applicationColumns` for the column type that
models.py actually declares for it. -/
structure Application where
  id : Nat
  full_name : String
  amount : ℚ
  phone : String
  status : Status
  created_at : Nat
  user_id : Nat
deriving DecidableEq, Repr

/-- The persistent store seen by one request: both tables, the primary-key
sequences, and the server clock used for `created_at`. -/
structure DbState where
  users : List User
  apps : List Application
  nextUserId : Nat
  nextAppId : Nat
  now : Nat
deriving DecidableEq, Repr

/-- fastapi `HTTPException` as raised by the handlers: a status code and a
detail string. -/
structure HTTPException where
  status_code : Nat
  detail : String
deriving DecidableEq, Repr

/-- schemas.py `UserCreate`: the request body of `POST /register`. -/
structure UserCreate where
  username : String
  password : String
deriving DecidableEq, Repr

/-- schemas.py `User` (lines 130-135): the declared `response_model` of
`POST /register`.  It extends `UserBase` (username) with `id` and
`hashed_password`; fastapi serializes exactly these three fields outward. -/
structure UserResponse where
  username : String
  id : Nat
  hashed_password : String
deriving DecidableEq, Repr

/-- schemas.py `ApplicationCreate`: the request body of `POST /applications`
(after field validation). -/
structure ApplicationCreate where
  full_name : String
  amount : ℚ
  phone : String
deriving DecidableEq, Repr

/-- The digit characters of a phone input, schemas.py line 54:
`"".join(filter(str.isdigit, v))`.  `Char.isDigit` embeds `str.isdigit`. -/
def clean_phone (v : String) : List Char :=
  v.data.filter Char.isDigit

/-- schemas.py `validate_phone` (lines 49-60): rejects the empty string, strips
every non-digit character, requires between 10 and 15 remaining digits, and
returns the digits prefixed with `+`. -/
def validate_phone (v : String) : Except String String :=
  if v = "" then .error "Телефон не может быть пустым"
  else if (clean_phone v).length < 10 then .error "Телефон должен содержать минимум 10 цифр"
  else if (clean_phone v).length > 15 then .error "Телефон слишком длинный"
  else .ok ("+" ++ String.mk (clean_phone v))

/-- main.py `register_user` (lines 46-82): rejects the literal username admin
(400), rejects a taken username (400), otherwise stores the new user with the
hashed password and returns it serialized through the `schemas.User` response
model.  `hashF` stands for auth.py `get_password_hash` (bcrypt, an external
primitive). -/
def register_user (hashF : String → String) (db : DbState) (user : UserCreate) :
    Except HTTPException (UserResponse × DbState) :=
  if user.username = "admin" then
    .error ⟨400, "Нельзя регистрироваться с именем admin"⟩
  else if (db.users.find? (fun u => u.username == user.username)).isSome then
    .error ⟨400, "Пользователь с таким именем уже существует"⟩
  else
    let hashed_password := hashF user.password
    let db_user : User := ⟨db.nextUserId, user.username, hashed_password⟩
    .ok (⟨db_user.username, db_user.id, db_user.hashed_password⟩,
         { db with users := db.users ++ [db_user], nextUserId := db.nextUserId + 1 })

/-- main.py `create_application` (lines 116-149): the automatic pre-screen —
`"rejected" if application.amount > Decimal("100000") else "new"` — then the
record is persisted with the server-assigned id and timestamp and returned. -/
def create_application (db : DbState) (current_user : User)
    (application : ApplicationCreate) : Application × DbState :=
  let status_result : Status :=
    if 100000 < application.amount then .rejected else .new
  let db_application : Application :=
    { id := db.nextAppId
      full_name := application.full_name
      amount := application.amount
      phone := application.phone
      status := status_result
      created_at := db.now
      user_id := current_user.id }
  (db_application,
   { db with apps := db.apps ++ [db_application], nextAppId := db.nextAppId + 1 })

/-- main.py `get_applications` (lines 154-178): admin sees every application,
any other identity only the rows whose `user_id` equals its own id. -/
def get_applications (db : DbState) (current_user : User) : List Application :=
  if current_user.username = "admin" then db.apps
  else db.apps.filter (fun a => a.user_id == current_user.id)

/-- The 404 error of main.py lines 193-197 and 238-242. -/
def not_found_error : HTTPException :=
  ⟨404, "Заявка не найдена"⟩

/-- The 403 error of main.py lines 199-203. -/
def view_forbidden_error : HTTPException :=
  ⟨403, "Нет прав для просмотра этой заявки"⟩

/-- The 403 error of main.py lines 231-235. -/
def admin_only_error : HTTPException :=
  ⟨403, "Только администратор может изменять статусы заявок"⟩

/-- main.py `get_application` (lines 183-213): first the lookup by id (404 when
absent), then the permission test (403 when the caller is neither admin nor the
owner), then the record. -/
def get_application (db : DbState) (current_user : User) (application_id : Nat) :
    Except HTTPException Application :=
  match db.apps.find? (fun a => a.id == application_id) with
  | none => .error not_found_error
  | some application =>
    if current_user.username ≠ "admin" ∧ application.user_id ≠ current_user.id then
      .error view_forbidden_error
    else
      .ok application

/-- In-place mutation of the row returned by
`db.query(...).filter(Application.id == application_id).first()` followed by
`application.status = status_update.status`: in the table, the first row
matching the id has its status field replaced and nothing else changes. -/
def setStatusFirst (l : List Application) (application_id : Nat) (s : Status) :
    List Application :=
  match l with
  | [] => []
  | a :: rest =>
    if a.id == application_id then { a with status := s } :: rest
    else a :: setStatusFirst rest application_id s

/-- main.py `update_application_status` (lines 218-256): the admin test comes
first (403 for everyone else, before any lookup), then the lookup by id (404
when absent), then the status of the found row is overwritten and the updated
row returned. -/
def update_application_status (db : DbState) (current_user : User)
    (application_id : Nat) (new_status : Status) :
    Except HTTPException (Application × DbState) :=
  if current_user.username ≠ "admin" then
    .error admin_only_error
  else
    match db.apps.find? (fun a => a.id == application_id) with
    | none => .error not_found_error
    | some application =>
      .ok ({ application with status := new_status },
           { db with apps := setStatusFirst db.apps application_id new_status })

/-- The payload carried by a JWT: the optional `sub` claim and the `exp`
timestamp (auth.py `create_access_token` always sets `exp`). -/
structure TokenPayload where
  sub : Option String
  exp : Nat
deriving DecidableEq, Repr

/-- A presented bearer token, embedded by the facts `jose.jwt.decode` checks:
whether it parses as a JWT at all, whether the signature matches the process
secret, and its payload. -/
structure Token where
  payload : TokenPayload
  wellFormed : Bool
  signatureValid : Bool
deriving DecidableEq, Repr

/-- jose `jwt.decode` (auth.py line 57), by its documented behaviour: raises
`JWTError` — embedded as `none` — on malformed encoding, signature mismatch, or
expiry in the past; otherwise yields the payload. -/
def jwtDecode (credentials : Token) (now : Nat) : Option TokenPayload :=
  if credentials.wellFormed && credentials.signatureValid
      && decide (now ≤ credentials.payload.exp) then
    some credentials.payload
  else
    none

/-- The uniform 401 of auth.py lines 51-55, raised for every failure mode of
`get_current_user`. -/
def credentials_exception : HTTPException :=
  ⟨401, "Could not validate credentials"⟩

/-- auth.py `get_current_user` (lines 50-71): decode the token (401 on any
decode failure), require the `sub` claim (401 when missing), look the subject
username up in the store (401 when absent), and return that user. -/
def get_current_user (db : DbState) (credentials : Token) (now : Nat) :
    Except HTTPException User :=
  match jwtDecode credentials now with
  | none => .error credentials_exception
  | some payload =>
    match payload.sub with
    | none => .error credentials_exception
    | some username =>
      match db.users.find? (fun u => u.username == username) with
      | none => .error credentials_exception
      | some user => .ok user

/-- The SQL column types that models.py declares. -/
inductive ColumnType where
  | integer
  | string
  | float
  | dateTime
deriving DecidableEq, Repr

/-- models.py `Application` (lines 7-16): the declared SQLAlchemy column type
of each field.  Line 12 is `amount = Column(Float)`. -/
def applicationColumns : List (String × ColumnType) :=
  [("id", .integer), ("full_name", .string), ("amount", .float),
   ("phone", .string), ("status", .string), ("created_at", .dateTime),
   ("user_id", .integer)]

/-- A value exactly representable in binary floating point, range aside: an
integer numerator over a power of two. -/
def isDyadic (q : ℚ) : Prop :=
  ∃ (m : ℤ) (e : ℕ), q = m / 2 ^ e

/-! ### Concrete fixtures used by the witness theorems -/

/-- The bootstrapped admin account (main.py `create_admin_user`). -/
def admin0 : User := ⟨1, "admin", "hash-admin123"⟩

/-- A regular registered user. -/
def alice : User := ⟨2, "alice", "hash-alice"⟩

/-- Another regular registered user. -/
def bob : User := ⟨3, "bob", "hash-bob"⟩

/-- An application owned by `alice`. -/
def appA : Application := ⟨1, "Иванов Иван Иванович", 50000, "+79991234567", .new, 0, 2⟩

/-- An application owned by `bob`. -/
def appB : Application := ⟨2, "Петров Петр Петрович", 200000, "+79991234568", .rejected, 0, 3⟩

/-- A populated store: three users, two applications. -/
def db1 : DbState := ⟨[admin0, alice, bob], [appA, appB], 4, 3, 5⟩

/-- The store right after bootstrap of the tables, before any registration. -/
def emptyDb : DbState := ⟨[], [], 1, 1, 0⟩

/-- A boundary-amount application request: exactly 100000. -/
def appc_boundary : ApplicationCreate := ⟨"Иванов Иван Иванович", 100000, "+79991234567"⟩

/-! ### Claims -/

/-- C2: for every application created via the authenticated submission
operation, an amount strictly above 100000 gives the created record status
`rejected`, an amount at most 100000 (the boundary 100000 included) gives
status `new`, and this status is assigned at creation: the new state's table is
the old table with exactly the one freshly created record appended, already
carrying that status. -/
theorem create_application_auto_decision (db : DbState) (u : User)
    (a : ApplicationCreate) :
    (100000 < a.amount → (create_application db u a).1.status = Status.rejected) ∧
    (a.amount ≤ 100000 → (create_application db u a).1.status = Status.new) ∧
    (create_application db u a).2.apps = db.apps ++ [(create_application db u a).1] := by
  refine ⟨?_, ?_, rfl⟩
  · intro h
    simp only [create_application]
    rw [if_pos h]
  · intro h
    simp only [create_application]
    rw [if_neg (not_lt.mpr h)]

/-- Witness for C2 at the boundary amount 100000: the created record's status
is `new`. -/
theorem create_application_auto_decision_witness :
    (create_application db1 alice appc_boundary).1.status = Status.new :=
  (create_application_auto_decision db1 alice appc_boundary).2.1 le_rfl

/-- C4: the status-update operation succeeds only for the admin identity; every
non-admin identity receives the 403 error, whatever the store contents and the
requested id — ownership and existence are never consulted first. -/
theorem update_status_admin_only (db : DbState) (u : User) (i : Nat) (s : Status) :
    (u.username ≠ "admin" →
      update_application_status db u i s = .error admin_only_error) ∧
    (∀ r, update_application_status db u i s = .ok r → u.username = "admin") := by
  constructor
  · intro h
    simp only [update_application_status]
    rw [if_pos h]
  · intro r hr
    by_contra hne
    simp only [update_application_status] at hr
    rw [if_pos hne] at hr
    exact Except.noConfusion hr

/-- Witness for C4: `alice` (who owns application 1) asking to update the
nonexistent application 99 gets 403, not 404. -/
theorem update_status_admin_only_witness :
    update_application_status db1 alice 99 Status.approved = .error admin_only_error :=
  (update_status_admin_only db1 alice 99 Status.approved).1 (by decide)

/-- C5: the list-applications operation returns the whole table to the admin
identity, and to every other identity exactly the rows whose owning user id is
its own — in particular a non-admin caller never receives a row owned by
someone else. -/
theorem get_applications_scoped_by_identity (db : DbState) (u : User) :
    (u.username = "admin" → get_applications db u = db.apps) ∧
    (u.username ≠ "admin" →
      get_applications db u = db.apps.filter (fun a => a.user_id == u.id) ∧
      ∀ a ∈ get_applications db u, a.user_id = u.id) := by
  constructor
  · intro h
    simp only [get_applications]
    rw [if_pos h]
  · intro h
    have hres : get_applications db u = db.apps.filter (fun a => a.user_id == u.id) := by
      simp only [get_applications]
      rw [if_neg h]
    refine ⟨hres, ?_⟩
    intro a ha
    rw [hres] at ha
    have := List.of_mem_filter ha
    exact eq_of_beq this

/-- Witness for C5: `alice` listing applications over the populated store gets
exactly her own application and nothing of `bob`. -/
theorem get_applications_scoped_witness :
    get_applications db1 alice = [appA] := by
  have h := ((get_applications_scoped_by_identity db1 alice).2 (by decide)).1
  rw [h]
  rfl

/-- C6: in the get-application-by-id operation the existence check precedes the
permission check: a nonexistent id yields 404 for every caller, an existing id
yields 403 when the caller is neither admin nor the owner, and yields the
record when the caller is the admin or the owner. -/
theorem get_application_existence_before_permission (db : DbState) (u : User)
    (i : Nat) :
    (db.apps.find? (fun a => a.id == i) = none →
      get_application db u i = .error not_found_error) ∧
    (∀ app, db.apps.find? (fun a => a.id == i) = some app →
      (u.username ≠ "admin" → app.user_id ≠ u.id →
        get_application db u i = .error view_forbidden_error) ∧
      (u.username = "admin" ∨ app.user_id = u.id →
        get_application db u i = .ok app)) := by
  constructor
  · intro h
    simp only [get_application]
    rw [h]
  · intro app h
    constructor
    · intro h1 h2
      simp only [get_application]
      rw [h]
      simp only [if_pos (And.intro h1 h2)]
    · intro hok
      have hnot : ¬(u.username ≠ "admin" ∧ app.user_id ≠ u.id) := by
        rcases hok with h1 | h2
        · exact fun hc => hc.1 h1
        · exact fun hc => hc.2 h2
      simp only [get_application]
      rw [h]
      simp only [if_neg hnot]

/-- Witness for C6: `bob`, who is not admin and owns nothing with id 99,
requesting the nonexistent application 99 gets 404 — the existence check fires
before any ownership consideration. -/
theorem get_application_order_witness :
    get_application db1 bob 99 = .error not_found_error :=
  (get_application_existence_before_permission db1 bob 99).1 rfl

/-- Row-wise frame relation of a status update targeting id `i`: the row keeps
its id, full name, amount, phone, creation timestamp and owning user id, and a
row whose id is not the target is entirely unchanged. -/
def statusFrame (i : Nat) (old new : Application) : Prop :=
  (new.id = old.id ∧ new.full_name = old.full_name ∧ new.amount = old.amount ∧
   new.phone = old.phone ∧ new.created_at = old.created_at ∧
   new.user_id = old.user_id) ∧
  (old.id ≠ i → new = old)

/-- `statusFrame` is reflexive, so an untouched table satisfies it row by
row. -/
theorem statusFrame_refl (i : Nat) (a : Application) : statusFrame i a a :=
  ⟨⟨rfl, rfl, rfl, rfl, rfl, rfl⟩, fun _ => rfl⟩

/-- `setStatusFirst` relates the old and the new table row by row through
`statusFrame`. -/
theorem setStatusFirst_frame (i : Nat) (s : Status) (l : List Application) :
    List.Forall₂ (statusFrame i) l (setStatusFirst l i s) := by
  induction l with
  | nil => exact List.Forall₂.nil
  | cons a t ih =>
    simp only [setStatusFirst]
    by_cases h : a.id == i
    · rw [if_pos h]
      refine List.Forall₂.cons ?_ (List.forall₂_same.mpr (fun x _ => statusFrame_refl i x))
      exact ⟨⟨rfl, rfl, rfl, rfl, rfl, rfl⟩, fun hne => absurd (eq_of_beq h) hne⟩
    · rw [if_neg h]
      exact List.Forall₂.cons (statusFrame_refl i a) ih

/-- C9: a successful status update mutates only the status field of the
targeted application: the user table, the id sequences and the clock are
untouched, and row by row the application table keeps every field except
possibly the status of the row with the targeted id; every other row is
entirely unchanged. -/
theorem update_status_frame (db : DbState) (u : User) (i : Nat) (s : Status)
    (rec : Application) (db2 : DbState)
    (h : update_application_status db u i s = .ok (rec, db2)) :
    db2.users = db.users ∧ db2.nextUserId = db.nextUserId ∧
    db2.nextAppId = db.nextAppId ∧ db2.now = db.now ∧
    List.Forall₂ (statusFrame i) db.apps db2.apps := by
  simp only [update_application_status] at h
  by_cases hu : u.username ≠ "admin"
  · rw [if_pos hu] at h
    exact Except.noConfusion h
  · rw [if_neg hu] at h
    cases hf : db.apps.find? (fun a => a.id == i) with
    | none =>
      rw [hf] at h
      exact Except.noConfusion h
    | some app =>
      rw [hf] at h
      have hpair : ({ app with status := s }, { db with apps := setStatusFirst db.apps i s }) = (rec, db2) :=
        by injection h
      have hdb2 : db2 = { db with apps := setStatusFirst db.apps i s } :=
        (congrArg Prod.snd hpair).symm
      rw [hdb2]
      exact ⟨rfl, rfl, rfl, rfl, setStatusFirst_frame i s db.apps⟩

/-- The row `appA` after an admin sets its status to `approved`. -/
def appA_approved : Application :=
  ⟨1, "Иванов Иван Иванович", 50000, "+79991234567", .approved, 0, 2⟩

/-- The populated store after the admin approves application 1. -/
def db1_after : DbState := ⟨[admin0, alice, bob], [appA_approved, appB], 4, 3, 5⟩

/-- Witness for C9: the admin approving application 1 of the populated store
leaves users, sequences, the clock, `appB` and every non-status field of
`appA` unchanged. -/
theorem update_status_frame_witness :
    db1_after.users = db1.users ∧ db1_after.nextUserId = db1.nextUserId ∧
    db1_after.nextAppId = db1.nextAppId ∧ db1_after.now = db1.now ∧
    List.Forall₂ (statusFrame 1) db1.apps db1_after.apps :=
  update_status_frame db1 admin0 1 Status.approved appA_approved db1_after rfl

/-- `jwtDecode` fails exactly on malformed encoding, signature mismatch, or
expiry in the past. -/
theorem jwtDecode_eq_none (c : Token) (now : Nat) :
    jwtDecode c now = none ↔
      (c.wellFormed = false ∨ c.signatureValid = false ∨
       c.payload.exp < now) := by
  unfold jwtDecode
  by_cases hx : now ≤ c.payload.exp
  · cases hw : c.wellFormed <;> cases hs : c.signatureValid <;>
      simp [hx, not_lt.mpr hx]
  · cases hw : c.wellFormed <;> cases hs : c.signatureValid <;>
      simp [hx, not_le.mp hx]

/-- A decodable token decodes to its own payload. -/
theorem jwtDecode_eq_some (c : Token) (now : Nat) (hw : c.wellFormed = true)
    (hs : c.signatureValid = true) (hx : now ≤ c.payload.exp) :
    jwtDecode c now = some c.payload := by
  unfold jwtDecode
  simp [hw, hs, hx]

/-- Inversion of a successful `jwtDecode`. -/
theorem jwtDecode_some_inv (c : Token) (now : Nat) (p : TokenPayload)
    (h : jwtDecode c now = some p) :
    p = c.payload ∧ c.wellFormed = true ∧ c.signatureValid = true ∧
    now ≤ c.payload.exp := by
  unfold jwtDecode at h
  by_cases hc : (c.wellFormed && c.signatureValid
      && decide (now ≤ c.payload.exp)) = true
  · rw [if_pos hc] at h
    have hp := Option.some_inj.mp h
    simp only [Bool.and_eq_true, decide_eq_true_eq] at hc
    exact ⟨hp.symm, hc.1.1, hc.1.2, hc.2⟩
  · rw [if_neg hc] at h
    exact Option.noConfusion h

/-- Evaluation of `get_current_user` when token decoding fails. -/
theorem gcu_decode_none (db : DbState) (c : Token) (now : Nat)
    (h : jwtDecode c now = none) :
    get_current_user db c now = .error credentials_exception := by
  simp only [get_current_user, h]

/-- Evaluation of `get_current_user` when the `sub` claim is missing. -/
theorem gcu_sub_none (db : DbState) (c : Token) (now : Nat) (p : TokenPayload)
    (h : jwtDecode c now = some p) (h2 : p.sub = none) :
    get_current_user db c now = .error credentials_exception := by
  simp only [get_current_user, h, h2]

/-- Evaluation of `get_current_user` when the named subject is absent. -/
theorem gcu_find_none (db : DbState) (c : Token) (now : Nat) (p : TokenPayload)
    (name : String) (h : jwtDecode c now = some p) (h2 : p.sub = some name)
    (h3 : db.users.find? (fun u => u.username == name) = none) :
    get_current_user db c now = .error credentials_exception := by
  simp only [get_current_user, h, h2, h3]

/-- Evaluation of `get_current_user` on the success path. -/
theorem gcu_find_some (db : DbState) (c : Token) (now : Nat) (p : TokenPayload)
    (name : String) (user : User) (h : jwtDecode c now = some p)
    (h2 : p.sub = some name)
    (h3 : db.users.find? (fun u => u.username == name) = some user) :
    get_current_user db c now = .ok user := by
  simp only [get_current_user, h, h2, h3]

/-- C7: identity resolution fails — always with the one uniform 401 — exactly
when the token is malformed, its signature mismatches, its expiry is in the
past, its `sub` claim is missing, or the named subject is absent from the user
store; in every other case it yields exactly the named user. -/
theorem get_current_user_failure_characterization (db : DbState)
    (credentials : Token) (now : Nat) :
    ((∃ e, get_current_user db credentials now = .error e) ↔
      (credentials.wellFormed = false ∨ credentials.signatureValid = false ∨
       credentials.payload.exp < now ∨ credentials.payload.sub = none ∨
       (∃ name, credentials.payload.sub = some name ∧
         db.users.find? (fun u => u.username == name) = none))) ∧
    (∀ e, get_current_user db credentials now = .error e →
      e = credentials_exception) ∧
    (∀ name user, credentials.wellFormed = true →
      credentials.signatureValid = true → now ≤ credentials.payload.exp →
      credentials.payload.sub = some name →
      db.users.find? (fun u => u.username == name) = some user →
      get_current_user db credentials now = .ok user) := by
  refine ⟨⟨?_, ?_⟩, ?_, ?_⟩
  · intro ⟨e, he⟩
    cases hdec : jwtDecode credentials now with
    | none =>
      rcases (jwtDecode_eq_none credentials now).mp hdec with hw | hs | hx
      · exact Or.inl hw
      · exact Or.inr (Or.inl hs)
      · exact Or.inr (Or.inr (Or.inl hx))
    | some payload =>
      obtain ⟨hpay, hw, hs, hx⟩ := jwtDecode_some_inv credentials now payload hdec
      subst hpay
      cases hsub : credentials.payload.sub with
      | none => exact Or.inr (Or.inr (Or.inr (Or.inl rfl)))
      | some name =>
        cases hfind : db.users.find? (fun u => u.username == name) with
        | none => exact Or.inr (Or.inr (Or.inr (Or.inr ⟨name, rfl, hfind⟩)))
        | some user =>
          have hok := gcu_find_some db credentials now credentials.payload
            name user hdec hsub hfind
          rw [hok] at he
          exact Except.noConfusion he
  · intro h
    rcases h with hw | hs | hx | hsub | ⟨name, hsub, hfind⟩
    · exact ⟨credentials_exception, gcu_decode_none db credentials now
        ((jwtDecode_eq_none credentials now).mpr (Or.inl hw))⟩
    · exact ⟨credentials_exception, gcu_decode_none db credentials now
        ((jwtDecode_eq_none credentials now).mpr (Or.inr (Or.inl hs)))⟩
    · exact ⟨credentials_exception, gcu_decode_none db credentials now
        ((jwtDecode_eq_none credentials now).mpr (Or.inr (Or.inr hx)))⟩
    · cases hdec : jwtDecode credentials now with
      | none => exact ⟨credentials_exception, gcu_decode_none db credentials now hdec⟩
      | some payload =>
        obtain ⟨hpay, -, -, -⟩ := jwtDecode_some_inv credentials now payload hdec
        subst hpay
        exact ⟨credentials_exception,
          gcu_sub_none db credentials now credentials.payload hdec hsub⟩
    · cases hdec : jwtDecode credentials now with
      | none => exact ⟨credentials_exception, gcu_decode_none db credentials now hdec⟩
      | some payload =>
        obtain ⟨hpay, -, -, -⟩ := jwtDecode_some_inv credentials now payload hdec
        subst hpay
        exact ⟨credentials_exception, gcu_find_none db credentials now
          credentials.payload name hdec hsub hfind⟩
  · intro e he
    cases hdec : jwtDecode credentials now with
    | none =>
      rw [gcu_decode_none db credentials now hdec] at he
      exact (Except.error.inj he).symm
    | some payload =>
      cases hsub : payload.sub with
      | none =>
        rw [gcu_sub_none db credentials now payload hdec hsub] at he
        exact (Except.error.inj he).symm
      | some name =>
        cases hfind : db.users.find? (fun u => u.username == name) with
        | none =>
          rw [gcu_find_none db credentials now payload name hdec hsub hfind] at he
          exact (Except.error.inj he).symm
        | some user =>
          rw [gcu_find_some db credentials now payload name user hdec hsub hfind] at he
          exact Except.noConfusion he
  · intro name user hw hs hx hsub hfind
    exact gcu_find_some db credentials now credentials.payload name user
      (jwtDecode_eq_some credentials now hw hs hx) hsub hfind

/-- A well-formed, correctly signed token naming `alice`, expiring at time 10. -/
def tok_alice : Token := ⟨⟨some "alice", 10⟩, true, true⟩

/-- Witness for C7: at time 5 the token `tok_alice` resolves to the stored user
`alice` over the populated store. -/
theorem get_current_user_witness :
    get_current_user db1 tok_alice 5 = .ok alice :=
  (get_current_user_failure_characterization db1 tok_alice 5).2.2 "alice" alice
    rfl rfl (by decide) rfl rfl

/-- Filtering the digit characters a second time changes nothing. -/
theorem filter_isDigit_idem (l : List Char) :
    (l.filter Char.isDigit).filter Char.isDigit = l.filter Char.isDigit := by
  induction l with
  | nil => rfl
  | cons a t ih =>
    by_cases h : Char.isDigit a
    · simp [List.filter_cons, h, ih]
    · simp [List.filter_cons, h, ih]

/-- The characters of a normalized phone: the plus sign followed by the kept
digits. -/
theorem data_plus_mk (c : List Char) :
    (("+" : String) ++ String.mk c).data = '+' :: c := rfl

/-- The digit characters of a normalized phone are exactly the kept digits. -/
theorem clean_phone_normalized (v : String) :
    clean_phone (("+" : String) ++ String.mk (clean_phone v)) = clean_phone v := by
  show (("+" : String) ++ String.mk (clean_phone v)).data.filter Char.isDigit
      = clean_phone v
  rw [data_plus_mk]
  rw [List.filter_cons]
  have hplus : Char.isDigit '+' = false := rfl
  rw [hplus]
  simp only [Bool.false_eq_true, if_false]
  exact filter_isDigit_idem v.data

/-- Inversion of an accepted phone input: the branch conditions that must have
held and the shape of the returned value. -/
theorem validate_phone_ok_inv (v r : String) (h : validate_phone v = .ok r) :
    ¬(clean_phone v).length < 10 ∧ ¬(clean_phone v).length > 15 ∧
    r = "+" ++ String.mk (clean_phone v) := by
  unfold validate_phone at h
  by_cases h0 : v = ""
  · rw [if_pos h0] at h
    exact Except.noConfusion h
  · rw [if_neg h0] at h
    by_cases h1 : (clean_phone v).length < 10
    · rw [if_pos h1] at h
      exact Except.noConfusion h
    · rw [if_neg h1] at h
      by_cases h2 : (clean_phone v).length > 15
      · rw [if_pos h2] at h
        exact Except.noConfusion h
      · rw [if_neg h2] at h
        exact ⟨h1, h2, (Except.ok.inj h).symm⟩

/-- C8: phone normalization is idempotent — every accepted input yields a
normalized value that normalizes to itself — and the spec example holds: the
input 8 (999) 123-45-67 normalizes to +89991234567. -/
theorem validate_phone_idempotent :
    (∀ v r, validate_phone v = .ok r → validate_phone r = .ok r) ∧
    validate_phone "8 (999) 123-45-67" = .ok "+89991234567" := by
  constructor
  · intro v r h
    obtain ⟨h1, h2, hr⟩ := validate_phone_ok_inv v r h
    subst hr
    have hne : ("+" : String) ++ String.mk (clean_phone v) ≠ "" := by
      intro hc
      have hd := congrArg String.data hc
      rw [data_plus_mk] at hd
      exact List.noConfusion hd
    unfold validate_phone
    rw [if_neg hne, clean_phone_normalized v, if_neg h1, if_neg h2]
  · rfl

/-- Witness for C8: the normalized form of the spec example re-normalizes to
itself. -/
theorem validate_phone_idempotent_witness :
    validate_phone "+89991234567" = .ok "+89991234567" :=
  validate_phone_idempotent.1 "8 (999) 123-45-67" "+89991234567"
    validate_phone_idempotent.2

/-- The number of digit characters of a phone input. -/
def digitCount (v : String) : Nat :=
  (clean_phone v).length

/-- C10: phone validation decides on the digit count alone — an input is
accepted exactly when it holds between 10 and 15 digit characters, each
non-digit character being silently stripped rather than rejected, and the
accepted value is the plus sign followed by exactly the kept digits. -/
theorem validate_phone_digit_count (v : String) :
    ((∃ r, validate_phone v = .ok r) ↔
      10 ≤ digitCount v ∧ digitCount v ≤ 15) ∧
    (∀ r, validate_phone v = .ok r → r = "+" ++ String.mk (clean_phone v)) := by
  constructor
  · constructor
    · intro ⟨r, h⟩
      obtain ⟨h1, h2, -⟩ := validate_phone_ok_inv v r h
      exact ⟨Nat.le_of_not_lt h1, Nat.le_of_not_lt h2⟩
    · intro ⟨hlo, hhi⟩
      simp only [digitCount] at hlo hhi
      have h0 : v ≠ "" := by
        intro hc
        subst hc
        exact absurd hlo (by decide)
      refine ⟨"+" ++ String.mk (clean_phone v), ?_⟩
      unfold validate_phone
      rw [if_neg h0, if_neg (Nat.not_lt.mpr hlo), if_neg (Nat.not_lt.mpr hhi)]
  · intro r h
    exact (validate_phone_ok_inv v r h).2.2

/-- Witness for C10: the accepted input 79991234567 (11 digits) returns the
plus sign followed by its kept digits. -/
theorem validate_phone_digit_count_witness :
    ("+79991234567" : String) = "+" ++ String.mk (clean_phone "79991234567") :=
  (validate_phone_digit_count "79991234567").2 "+79991234567" rfl

/-- C1: the claim fails on the code.  `POST /register` serializes its result
through the declared response model `schemas.User`, which carries the field
`hashed_password`; evaluating the handler on the fresh store with the accepted
request (alice, secret123) produces a response that does contain the password
hash, for any hashing function the credential store provides. -/
theorem register_response_contains_password_hash (hashF : String → String) :
    register_user hashF emptyDb ⟨"alice", "secret123"⟩ =
      .ok (⟨"alice", 1, hashF "secret123"⟩,
           ⟨[⟨1, "alice", hashF "secret123"⟩], [], 2, 1, 0⟩) ∧
    (UserResponse.mk "alice" 1 (hashF "secret123")).hashed_password =
      hashF "secret123" :=
  ⟨rfl, rfl⟩

/-- C3: the claim fails on the code.  models.py line 12 declares
`amount = Column(Float)`, so the persisted amount is binary floating point,
although the request layer accepts and compares exact decimals; the valid
decimal amount 1/10 (0.10) is strictly positive yet equal to no binary float,
so the stored representation cannot hold every accepted amount exactly. -/
theorem amount_column_is_binary_float :
    applicationColumns.lookup "amount" = some ColumnType.float ∧
    0 < (1 / 10 : ℚ) ∧ ¬ isDyadic (1 / 10 : ℚ) := by
  refine ⟨rfl, by norm_num, ?_⟩
  rintro ⟨m, e, h⟩
  have h2e : ((2 : ℚ) ^ e) ≠ 0 := by positivity
  have hten : (10 : ℚ) ≠ 0 := by norm_num
  rw [div_eq_div_iff hten h2e] at h
  have hz : (1 : ℤ) * 2 ^ e = m * 10 := by exact_mod_cast h
  have h5 : (5 : ℤ) ∣ 2 ^ e := ⟨2 * m, by linarith⟩
  have hp : Prime (5 : ℤ) := by norm_num
  have h52 : (5 : ℤ) ∣ 2 := hp.dvd_of_dvd_pow h5
  norm_num at h52

end CreditApp
